import Mathlib

/-!
Shallow embedding of the terminal-session authentication bridge of
`src/app.py` (the `GeminiAuthenticator` class plus the `clean_gemini_output`
helper), together with theorems settling the frozen claims about it.

Strings are modelled as `List Char`; Python text primitives (`str.strip`,
`str.splitlines`, substring containment, the two ANSI-escape regexes and the
URL regex) are embedded directly below.
-/

/-- Python whitespace characters, the set used by `str.strip()` and matched by
the regex class `\s` on text patterns. -/
def isPySpace (c : Char) : Bool :=
  decide ((0x09 ≤ c.toNat ∧ c.toNat ≤ 0x0d) ∨ c = ' ' ∨
    (0x1c ≤ c.toNat ∧ c.toNat ≤ 0x1f) ∨ c.toNat = 0x85 ∨ c.toNat = 0xa0 ∨
    c.toNat = 0x1680 ∨ (0x2000 ≤ c.toNat ∧ c.toNat ≤ 0x200a) ∨
    c.toNat = 0x2028 ∨ c.toNat = 0x2029 ∨ c.toNat = 0x202f ∨
    c.toNat = 0x205f ∨ c.toNat = 0x3000)

/-- Python `str.strip()`: drop whitespace from both ends. -/
def pyStrip (cs : List Char) : List Char :=
  ((cs.dropWhile isPySpace).reverse.dropWhile isPySpace).reverse

/-- Line-break characters recognised by Python `str.splitlines()`. -/
def isPyLineBreak (c : Char) : Bool :=
  decide (c = '\n' ∨ c = '\r' ∨ c.toNat = 0x0b ∨ c.toNat = 0x0c ∨
    c.toNat = 0x1c ∨ c.toNat = 0x1d ∨ c.toNat = 0x1e ∨ c.toNat = 0x85 ∨
    c.toNat = 0x2028 ∨ c.toNat = 0x2029)

/-- Worker for `pySplitlines`; `acc` is the current line, reversed. -/
def splitlinesGo : List Char → List Char → List (List Char)
  | [], [] => []
  | [], acc => [acc.reverse]
  | '\r' :: '\n' :: rest, acc => acc.reverse :: splitlinesGo rest []
  | c :: rest, acc =>
    if isPyLineBreak c then acc.reverse :: splitlinesGo rest []
    else splitlinesGo rest (c :: acc)

/-- Python `str.splitlines()`: split at line breaks, treating CR LF as one
break and dropping a trailing empty piece. -/
def pySplitlines (cs : List Char) : List (List Char) :=
  splitlinesGo cs []

/-- Python substring containment: `needle in hay`. -/
def containsSub : List Char → List Char → Bool
  | [], needle => needle.isEmpty
  | hay@(_ :: rest), needle => List.isPrefixOf needle hay || containsSub rest needle

/-- First alternative of the ANSI regex after the escape byte: one character
in the range 0x40 to 0x5a or 0x5c to 0x5f. -/
def isEscFollower (c : Char) : Bool :=
  decide ((0x40 ≤ c.toNat ∧ c.toNat ≤ 0x5a) ∨ (0x5c ≤ c.toNat ∧ c.toNat ≤ 0x5f))

/-- CSI parameter bytes: range 0x30 to 0x3f. -/
def isCsiParam (c : Char) : Bool :=
  decide (0x30 ≤ c.toNat ∧ c.toNat ≤ 0x3f)

/-- CSI intermediate bytes: range 0x20 to 0x2f. -/
def isCsiInter (c : Char) : Bool :=
  decide (0x20 ≤ c.toNat ∧ c.toNat ≤ 0x2f)

/-- CSI final byte: range 0x40 to 0x7e. -/
def isCsiFinal (c : Char) : Bool :=
  decide (0x40 ≤ c.toNat ∧ c.toNat ≤ 0x7e)

/-- Match the tail of a CSI sequence: zero or more parameter bytes, zero or
more intermediate bytes, then one final byte. The three classes are pairwise
disjoint so greedy matching is exact. Returns the remainder on a full match. -/
def matchCsiTail (cs : List Char) : Option (List Char) :=
  match (cs.dropWhile isCsiParam).dropWhile isCsiInter with
  | c :: rest => if isCsiFinal c then some rest else none
  | [] => none

/-- Match what may follow an ESC byte in the ANSI regex of the source (a lone
follower byte, or an opening bracket followed by a CSI tail); returns the
remainder on a match. -/
def matchEsc : List Char → Option (List Char)
  | [] => none
  | c :: rest =>
    if c = '[' then matchCsiTail rest
    else if isEscFollower c then some rest
    else none

/-- Worker for `stripAnsi`, structurally recursive on a fuel bound. Every
step consumes at least one input character, so fuel equal to the input length
is always enough; the fuel-exhausted arm is unreachable from `stripAnsi`. -/
def stripAnsiF : Nat → List Char → List Char
  | 0, cs => cs
  | _ + 1, [] => []
  | fuel + 1, c :: rest =>
    if c = '\x1B' then
      match matchEsc rest with
      | some rest2 => stripAnsiF fuel rest2
      | none => c :: stripAnsiF fuel rest
    else c :: stripAnsiF fuel rest

/-- `ansi_pattern.sub('', text)`: delete every match of the ANSI regex,
scanning left to right; an ESC that does not head a full match is kept. -/
def stripAnsi (cs : List Char) : List Char :=
  stripAnsiF cs.length cs

/-! ## clean_gemini_output -/

/-- Literal prefix of startup noise lines. -/
def startupLit : List Char := "[STARTUP]".toList

/-- Literal prefix of cached-credential notice lines. -/
def loadedLit : List Char := "Loaded cached credentials".toList

/-- Truthiness of the `prompt` argument in Python: present and non-empty. -/
def promptTruthy : Option (List Char) → Bool
  | none => false
  | some p => !p.isEmpty

/-- The per-line loop of `clean_gemini_output`: drop noise lines, drop the
first line whose stripped form equals the stripped prompt (tracked by the
`removed` flag), keep every other line verbatim. -/
def cleanLoop (prompt : Option (List Char)) : List (List Char) → Bool → List (List Char)
  | [], _ => []
  | line :: rest, removed =>
    let l := pyStrip line
    if List.isPrefixOf startupLit l then cleanLoop prompt rest removed
    else if List.isPrefixOf loadedLit l then cleanLoop prompt rest removed
    else if promptTruthy prompt && !removed && l = pyStrip (prompt.getD []) then
      cleanLoop prompt rest true
    else line :: cleanLoop prompt rest removed

/-- `clean_gemini_output(text, prompt)` from src/app.py: strip ANSI codes,
split into lines, filter noise and the first echoed prompt, join with newlines
and strip the result. -/
def clean_gemini_output (text : String) (prompt : Option String) : String :=
  let t := stripAnsi text.toList
  let cleaned := cleanLoop (prompt.map String.toList) (pySplitlines t) false
  String.mk (pyStrip (List.intercalate ['\n'] cleaned))

/-- A stripped line is noise when it starts with the startup banner prefix or
the cached-credentials prefix. -/
def isNoiseLine (line : List Char) : Bool :=
  List.isPrefixOf startupLit (pyStrip line) || List.isPrefixOf loadedLit (pyStrip line)

/-- Remove the first element satisfying `p` from a list, keep the rest. -/
def removeFirstMatch (p : List Char → Bool) : List (List Char) → List (List Char)
  | [] => []
  | l :: ls => if p l then ls else l :: removeFirstMatch p ls

/-! ## The monitor loop: menu handling and URL scraping -/

/-- Menu trigger phrase scanned for by `_monitor_output`. -/
def menuLit : List Char := "Login with Google".toList

/-- URL qualification filter of `_monitor_output`: the captured URL token must
contain `google.com` or `accounts` as a substring. -/
def qualifiesUrl (u : List Char) : Bool :=
  containsSub u "google.com".toList || containsSub u "accounts".toList

/-- Literal scheme prefix of the URL regex. -/
def httpsLit : List Char := "https://".toList

/-- Leftmost match of the URL regex (the scheme literal followed by one or
more non-whitespace characters, taken greedily) in a line; returns the
captured token. -/
def findUrl : List Char → Option (List Char)
  | [] => none
  | cs@(_ :: rest) =>
    if List.isPrefixOf httpsLit cs then
      let tok := (cs.drop 8).takeWhile (fun c => !isPySpace c)
      if tok.isEmpty then findUrl rest else some (httpsLit ++ tok)
    else findUrl rest

/-- The URL a single cleaned line contributes: the first URL token of the
line when it qualifies, nothing otherwise. -/
def lineQualUrl (line : List Char) : Option (List Char) :=
  match findUrl (stripAnsi line) with
  | some u => if qualifiesUrl u then some u else none
  | none => none

/-- Observable side effects of the authenticator on the terminal and the
child process, in order of occurrence. -/
inductive Act
  | sleep (ms : Nat)
  | writeBytes (s : List Char)
  | closeFd (fd : Nat)
  | terminate
  | waitChild
  | kill
deriving DecidableEq

/-- Loop-local state of one `_monitor_output` run, alongside the shared
`auth_url` field it updates. -/
structure MonState where
  menu_handled : Bool
  auth_url : Option (List Char)
deriving DecidableEq

/-- URL half of the per-line body: the first URL token of the cleaned line
overwrites `auth_url` whenever it qualifies. -/
def urlStep (st : MonState) (clean : List Char) : MonState :=
  match findUrl clean with
  | some u => if qualifiesUrl u then { st with auth_url := some u } else st
  | none => st

/-- One iteration of the per-line loop of `_monitor_output`: strip ANSI codes,
auto-select the menu once (a settle sleep, then the keystroke; a failed write
leaves the flag unset and breaks the loop), then scan for a URL. The third
component is false when the loop must break. -/
def monitorLine (writeOk : Bool) (st : MonState) (line : List Char) :
    MonState × List Act × Bool :=
  let clean := stripAnsi line
  if !st.menu_handled && containsSub clean menuLit then
    if writeOk then
      (urlStep { st with menu_handled := true } clean,
        [Act.sleep 1000, Act.writeBytes ['1', '\n']], true)
    else (st, [Act.sleep 1000], false)
  else (urlStep st clean, [], true)

/-- The per-line loop over the lines of one decoded chunk; a break abandons
the remaining lines of that chunk. -/
def monitorLines (writeOk : Bool) : MonState → List (List Char) → MonState × List Act
  | st, [] => (st, [])
  | st, l :: ls =>
    let r := monitorLine writeOk st l
    if r.2.2 then
      let r2 := monitorLines writeOk r.1 ls
      (r2.1, r.2.1 ++ r2.2)
    else (r.1, r.2.1)

/-- The read loop of `_monitor_output` over the successive decoded chunks:
each chunk is split into lines per read (no partial-line buffering) and fed to
the per-line loop. -/
def monitorChunks (writeOk : Bool) : MonState → List (List Char) → MonState × List Act
  | st, [] => (st, [])
  | st, c :: cs =>
    let r := monitorLines writeOk st (pySplitlines c)
    let r2 := monitorChunks writeOk r.1 cs
    (r2.1, r.2 ++ r2.2)

/-! ## Authenticator state -/

/-- A spawned child process handle; `alive` is true exactly when `poll()`
returns None. -/
structure Proc where
  pid : Nat
  alive : Bool
deriving DecidableEq

/-- The two on-disk artifacts whose paths `check_auth_status` can record:
`~/.gemini/oauth_creds.json` and `~/.gemini/google_accounts.json`. -/
inductive CredPath
  | oauthCreds
  | googleAccounts
deriving DecidableEq

/-- The mutable fields of the `GeminiAuthenticator` singleton. `master_fd`
is `none` both before the attribute is first assigned and after it is cleared. -/
structure AState where
  auth_process : Option Proc
  auth_url : Option (List Char)
  is_authenticated : Bool
  credentials_path : Option CredPath
  master_fd : Option Nat
deriving DecidableEq

/-- State built by the constructor of `GeminiAuthenticator`. -/
def initState : AState :=
  { auth_process := none, auth_url := none, is_authenticated := false,
    credentials_path := none, master_fd := none }

/-! ## Credential probe (check_auth_status) -/

/-- Outcome of reading and parsing one credential file. `missing` means the
isfile test fails; `unreadable` means opening or reading raises; `invalid`
means the stripped content is not valid JSON (this covers an empty file);
`dict` is a parsed JSON object as an association list from key to the
truthiness of its value. -/
inductive FileState
  | missing
  | unreadable
  | invalid
  | dict (fields : List (String × Bool))
deriving DecidableEq

/-- The isfile test: true for everything but a missing file. -/
def fsIsFile : FileState → Bool
  | FileState.missing => false
  | _ => true

/-- The three files inspected by the probe, keyed by their fixed paths under
the home directory. -/
structure FS where
  oauth_creds : FileState
  settings : FileState
  accounts : FileState
deriving DecidableEq

/-- Key membership in a parsed JSON object. -/
def hasKey (fields : List (String × Bool)) (k : String) : Bool :=
  (fields.lookup k).isSome

/-- Truthiness of the value stored under a key, false when absent. -/
def keyTruthy (fields : List (String × Bool)) (k : String) : Bool :=
  (fields.lookup k).getD false

/-- The fallback arm of the probe: the settings file must pass isfile and the
accounts file must pass isfile, read, parse, and hold a truthy active field.
Any read or parse failure is swallowed and says nothing. -/
def fallbackProbe (fs : FS) : Option CredPath :=
  if fsIsFile fs.settings then
    match fs.accounts with
    | FileState.dict fields =>
      if keyTruthy fields "active" then some CredPath.googleAccounts else none
    | _ => none
  else none

/-- Which source, if any, confirms authentication: first the primary
credentials file (an access or refresh token key suffices), then the fallback
pair. Read and parse failures on the primary file fall through to the
fallback. -/
def probeResult (fs : FS) : Option CredPath :=
  match fs.oauth_creds with
  | FileState.dict fields =>
    if hasKey fields "access_token" || hasKey fields "refresh_token" then
      some CredPath.oauthCreds
    else fallbackProbe fs
  | _ => fallbackProbe fs

/-- `check_auth_status` from src/app.py: on a confirming source, set the
authenticated flag and record the path of that source and return true;
otherwise clear both and return false. Never raises: every file error is
swallowed inside the probe. -/
def check_auth_status (fs : FS) (s : AState) : AState × Bool :=
  match probeResult fs with
  | some p => ({ s with is_authenticated := true, credentials_path := some p }, true)
  | none => ({ s with is_authenticated := false, credentials_path := none }, false)

/-! ## start_auth_flow -/

/-- Fresh resources the OS hands a spawn: the child pid and the PTY master
descriptor. -/
structure SpawnSupply where
  child_pid : Nat
  fd : Nat
deriving DecidableEq

/-- One recorded spawn: which child and descriptor pair went live. -/
structure SpawnEvent where
  child_pid : Nat
  fd : Nat
deriving DecidableEq

/-- Truthiness of the running-process test in Python: the handle exists and
`poll()` is None. -/
def procAlive (s : AState) : Bool :=
  match s.auth_process with
  | some p => p.alive
  | none => false

/-- `start_auth_flow` from src/app.py: a silent no-op when a process is
already running; otherwise allocate the PTY, spawn the child attached to it
and store both handles. Returns the spawn events performed. -/
def start_auth_flow (su : SpawnSupply) (s : AState) : AState × List SpawnEvent :=
  if procAlive s then (s, [])
  else
    ({ s with
        auth_process := some (Proc.mk su.child_pid true),
        master_fd := some su.fd },
     [SpawnEvent.mk su.child_pid su.fd])

/-- A sequence of further `start_auth_flow` calls, collecting spawn events. -/
def startMany : List SpawnSupply → AState → AState × List SpawnEvent
  | [], s => (s, [])
  | su :: sus, s =>
    let r := start_auth_flow su s
    let r2 := startMany sus r.1
    (r2.1, r.2 ++ r2.2)

/-! ## _cleanup_process -/

/-- Which of the fallible teardown calls raise. A failed close and a failed
kill are swallowed with no effect on state or ordering, so only the graceful
path is modelled as branching: when terminate raises, or wait times out, the
code falls back to kill. -/
structure CleanupOracle where
  terminate_raises : Bool
  wait_raises : Bool
deriving DecidableEq

/-- First half of `_cleanup_process`: close and clear the master descriptor,
but only when the attribute is set and truthy, so a zero descriptor is
skipped. A raising close is swallowed and changes nothing further. -/
def cleanupClose (s : AState) : AState × List Act :=
  match s.master_fd with
  | some fd =>
    if fd ≠ 0 then ({ s with master_fd := none }, [Act.closeFd fd]) else (s, [])
  | none => (s, [])

/-- Second half of `_cleanup_process`: stop the child when a handle exists by
terminating and waiting with a grace timeout, falling back to kill when
either raises; a raising kill is swallowed. The handle is cleared in every
case. -/
def cleanupKill (o : CleanupOracle) (s : AState) : AState × List Act :=
  match s.auth_process with
  | some _ =>
    ({ s with auth_process := none },
     if o.terminate_raises then [Act.terminate, Act.kill]
     else if o.wait_raises then [Act.terminate, Act.waitChild, Act.kill]
     else [Act.terminate, Act.waitChild])
  | none => (s, [])

/-- `_cleanup_process` from src/app.py: close the master descriptor first,
then stop the child. All failures are swallowed; the call never raises.
Returns the attempted teardown actions in order. -/
def cleanup_process (o : CleanupOracle) (s : AState) : AState × List Act :=
  let c := cleanupClose s
  let k := cleanupKill o c.1
  (k.1, c.2 ++ k.2)

/-! ## _monitor_output against the shared state -/

/-- `_monitor_output` from src/app.py, abstracted over the decoded chunks the
PTY yields during the run: guarded by the process and descriptor being
present, it runs the chunk loop with a fresh loop-local menu flag and writes
the resulting URL slot back. -/
def monitor_output (writeOk : Bool) (chunks : List (List Char)) (s : AState) :
    AState × List Act :=
  match s.auth_process, s.master_fd with
  | some _, some _ =>
    let r := monitorChunks writeOk { menu_handled := false, auth_url := s.auth_url } chunks
    ({ s with auth_url := r.1.auth_url }, r.2)
  | _, _ => (s, [])

/-! ## submit_code -/

/-- Outcome of one non-blocking read inside the verification poll loop.
`fdGone` is the descriptor observed as None after a concurrent cleanup, which
breaks the loop; `readErr` covers a read raising or blocking; `data` is a
decoded chunk (possibly empty). -/
inductive ReadEvent
  | fdGone
  | readErr
  | data (chunk : List Char)
deriving DecidableEq

/-- Environment of one `submit_code` call: whether the two descriptor
operations raise (with the exception text used in the returned message), the
reads the verification window yields before the timeout, the credential files
for the fallback probe, and the teardown oracle. -/
structure SubmitEnv where
  write_raises : Bool
  write_err_msg : String
  fcntl_raises : Bool
  fcntl_err_msg : String
  events : List ReadEvent
  fs : FS
  cleanup_oracle : CleanupOracle

/-- What a `submit_code` call produces: the state it leaves behind, the
terminal actions it performed, and the returned pair of success flag and
message. -/
structure SubmitResult where
  state : AState
  acts : List Act
  ok : Bool
  msg : String
deriving DecidableEq

/-- Python `code.endswith(chr(10))` on the character list of the code. -/
def endsWithNl (cs : List Char) : Bool :=
  match cs.getLast? with
  | some c => c = '\n'
  | none => false

/-- The bytes actually written for a submitted code: the code itself, with a
newline appended when it does not already end in one. -/
def submittedCode (code : String) : List Char :=
  if endsWithNl code.toList then code.toList else code.toList ++ ['\n']

/-- The success-indicator substrings scanned for after code submission. -/
def success_indicators : List (List Char) :=
  ["sandbox".toList, "/app".toList, "auto".toList]

/-- True when the ANSI-stripped chunk contains any success indicator. -/
def hasIndicator (clean : List Char) : Bool :=
  success_indicators.any (fun ind => containsSub clean ind)

/-- The timeout tail of the verification loop: fall back to the credential
probe; on confirmation clean up and report success, otherwise leave the
session untouched and report the pending result with the success flag true. -/
def verifyFallback (fs : FS) (o : CleanupOracle) (s : AState) : SubmitResult :=
  let r := check_auth_status fs s
  if r.2 then
    let c := cleanup_process o r.1
    { state := c.1, acts := c.2, ok := true, msg := "Authentication successful." }
  else
    { state := r.1, acts := [], ok := true, msg := "Code submitted. Verifying..." }

/-- The bounded verification poll loop of `submit_code`: each iteration reads
once; a vanished descriptor breaks to the fallback, a read error or a chunk
without an indicator sleeps the poll interval and continues, and the first
chunk containing an indicator sleeps the settle delay, cleans up, and returns
success. An exhausted event list is the timeout. -/
def pollLoop (fs : FS) (o : CleanupOracle) : List ReadEvent → AState → SubmitResult
  | [], s => verifyFallback fs o s
  | ReadEvent.fdGone :: _, s => verifyFallback fs o s
  | ReadEvent.readErr :: rest, s =>
    let r := pollLoop fs o rest s
    { r with acts := Act.sleep 500 :: r.acts }
  | ReadEvent.data c :: rest, s =>
    if hasIndicator (stripAnsi c) then
      let cl := cleanup_process o s
      { state := cl.1, acts := Act.sleep 1000 :: cl.2, ok := true,
        msg := "Authentication successful." }
    else
      let r := pollLoop fs o rest s
      { r with acts := Act.sleep 500 :: r.acts }

/-- `submit_code` from src/app.py: guard on a running child and an open
descriptor, append a newline to the code when absent, write it to the PTY,
set the descriptor non-blocking, then run the verification poll loop. Guard
and descriptor failures return the success flag false with an error message
and touch nothing. -/
def submit_code (env : SubmitEnv) (code : String) (s : AState) : SubmitResult :=
  if !procAlive s then
    { state := s, acts := [], ok := false, msg := "Auth process not running." }
  else
    match s.master_fd with
    | none =>
      { state := s, acts := [], ok := false, msg := "PTY master not open." }
    | some _ =>
      let code2 := submittedCode code
      if env.write_raises then
        { state := s, acts := [], ok := false,
          msg := "Error writing to PTY: " ++ env.write_err_msg }
      else if env.fcntl_raises then
        { state := s, acts := [Act.writeBytes code2], ok := false,
          msg := "Error configuring PTY: " ++ env.fcntl_err_msg }
      else
        let r := pollLoop env.fs env.cleanup_oracle env.events s
        { r with acts := Act.writeBytes code2 :: r.acts }

/-! ## force_terminate -/

/-- `force_terminate` from src/app.py: unconditionally clean up, then re-run
the credential probe and report whether authentication ended up confirmed. -/
def force_terminate (fs : FS) (o : CleanupOracle) (s : AState) : SubmitResult :=
  let c := cleanup_process o s
  let r := check_auth_status fs c.1
  if r.2 then
    { state := r.1, acts := c.2, ok := true,
      msg := "Process terminated. Authentication successful." }
  else
    { state := r.1, acts := c.2, ok := false,
      msg := "Process terminated. Authentication failed." }

/-! ## Helper lemmas -/

theorem cleanupClose_state (s : AState) (hfd : s.master_fd ≠ some 0) :
    (cleanupClose s).1 = { s with master_fd := none } := by
  obtain ⟨ap, au, ia, cp, mf⟩ := s
  rcases mf with _ | fd
  · simp [cleanupClose]
  · have h0 : fd ≠ 0 := fun h => hfd (by simp [h])
    simp [cleanupClose, h0]

theorem cleanupKill_state (o : CleanupOracle) (s : AState) :
    (cleanupKill o s).1 = { s with auth_process := none } := by
  obtain ⟨ap, au, ia, cp, mf⟩ := s
  rcases ap with _ | p <;> simp [cleanupKill]

theorem cleanup_state_eq (o : CleanupOracle) (s : AState) (hfd : s.master_fd ≠ some 0) :
    (cleanup_process o s).1 = { s with master_fd := none, auth_process := none } := by
  show (cleanupKill o (cleanupClose s).1).1 = _
  rw [cleanupClose_state s hfd, cleanupKill_state]

theorem cleanup_noop (o : CleanupOracle) (s : AState) (h1 : s.master_fd = none)
    (h2 : s.auth_process = none) : cleanup_process o s = (s, []) := by
  obtain ⟨ap, au, ia, cp, mf⟩ := s
  simp only at h1 h2
  subst h1; subst h2
  simp [cleanup_process, cleanupClose, cleanupKill]

theorem cleanupClose_acts (s : AState) :
    ∀ a ∈ (cleanupClose s).2, ∃ fd, a = Act.closeFd fd := by
  obtain ⟨ap, au, ia, cp, mf⟩ := s
  rcases mf with _ | fd
  · simp [cleanupClose]
  · by_cases h0 : fd = 0 <;> simp [cleanupClose, h0]

theorem cleanupKill_acts (o : CleanupOracle) (s : AState) :
    ∀ a ∈ (cleanupKill o s).2,
      a = Act.terminate ∨ a = Act.waitChild ∨ a = Act.kill := by
  obtain ⟨ap, au, ia, cp, mf⟩ := s
  obtain ⟨tr, wr⟩ := o
  rcases ap with _ | p
  · simp [cleanupKill]
  · cases tr <;> cases wr <;> simp [cleanupKill]

/-- Fields other than the two handles are untouched by cleanup. -/
theorem cleanup_preserves (o : CleanupOracle) (s : AState) :
    (cleanup_process o s).1.auth_url = s.auth_url ∧
    (cleanup_process o s).1.is_authenticated = s.is_authenticated ∧
    (cleanup_process o s).1.credentials_path = s.credentials_path := by
  obtain ⟨ap, au, ia, cp, mf⟩ := s
  show (cleanupKill o (cleanupClose _).1).1.auth_url = _ ∧ _
  rcases mf with _ | fd
  · rcases ap with _ | p <;> simp [cleanup_process, cleanupClose, cleanupKill]
  · by_cases h0 : fd = 0 <;> rcases ap with _ | p <;>
      simp [cleanup_process, cleanupClose, cleanupKill, h0]

/-! ## Claim C5: cleanup is idempotent and ordered -/

/-- C5: `_cleanup_process` is idempotent and ordered. For every state whose
descriptor is not the skipped zero descriptor and for all teardown outcomes,
one call clears both the terminal descriptor handle and the child process
handle, its action trace closes the descriptor strictly before any attempt to
stop the child, a second call in a row changes nothing and performs no
action, and (being a total function over all oracle outcomes) it never
raises. -/
theorem cleanup_idempotent_and_ordered (s : AState) (o1 o2 : CleanupOracle)
    (hfd : s.master_fd ≠ some 0) :
    (cleanup_process o1 s).1.master_fd = none ∧
    (cleanup_process o1 s).1.auth_process = none ∧
    cleanup_process o2 (cleanup_process o1 s).1 = ((cleanup_process o1 s).1, []) ∧
    ∃ ca ta, (cleanup_process o1 s).2 = ca ++ ta ∧
      (∀ a ∈ ca, ∃ fd, a = Act.closeFd fd) ∧
      (∀ a ∈ ta, a = Act.terminate ∨ a = Act.waitChild ∨ a = Act.kill) := by
  have hs := cleanup_state_eq o1 s hfd
  have h1 : (cleanup_process o1 s).1.master_fd = none := by rw [hs]
  have h2 : (cleanup_process o1 s).1.auth_process = none := by rw [hs]
  refine ⟨h1, h2, cleanup_noop o2 _ h1 h2, ?_⟩
  exact ⟨(cleanupClose s).2, (cleanupKill o1 (cleanupClose s).1).2, rfl,
    cleanupClose_acts s, cleanupKill_acts o1 _⟩

/-- Concrete state for the C5 witness: a live child on pid 7 with descriptor 5. -/
def sLive : AState :=
  { auth_process := some (Proc.mk 7 true), auth_url := none,
    is_authenticated := false, credentials_path := none, master_fd := some 5 }

/-- C5 witness: the theorem applied at a concrete live session, with the
graceful oracle first and a raising terminate on the second call. -/
theorem cleanup_idempotent_and_ordered_witness :
    (cleanup_process (CleanupOracle.mk false false) sLive).1.master_fd = none ∧
    (cleanup_process (CleanupOracle.mk false false) sLive).1.auth_process = none ∧
    cleanup_process (CleanupOracle.mk true false)
        (cleanup_process (CleanupOracle.mk false false) sLive).1 =
      ((cleanup_process (CleanupOracle.mk false false) sLive).1, []) ∧
    ∃ ca ta, (cleanup_process (CleanupOracle.mk false false) sLive).2 = ca ++ ta ∧
      (∀ a ∈ ca, ∃ fd, a = Act.closeFd fd) ∧
      (∀ a ∈ ta, a = Act.terminate ∨ a = Act.waitChild ∨ a = Act.kill) :=
  cleanup_idempotent_and_ordered sLive (CleanupOracle.mk false false)
    (CleanupOracle.mk true false) (by decide)

/-! ## Claim C6: the credential probe never raises and reports not found -/

/-- A credential file state that says nothing: the file is missing, opening
or reading it raises, or its stripped content fails to parse (which covers an
empty file). -/
def badFile (f : FileState) : Prop :=
  f = FileState.missing ∨ f = FileState.unreadable ∨ f = FileState.invalid

/-- C6: for every combination of bad credential-file states (missing,
unreadable, empty or malformed content) `check_auth_status` returns false
with the recorded credential path cleared, leaving every other field
unchanged; it is a total function, so no error propagates out of it. -/
theorem probe_bad_files_false_none (fs : FS) (s : AState)
    (h1 : badFile fs.oauth_creds) (h2 : badFile fs.accounts) :
    check_auth_status fs s =
      ({ s with is_authenticated := false, credentials_path := none }, false) := by
  have hfb : fallbackProbe fs = none := by
    unfold fallbackProbe
    rcases h2 with h | h | h <;> rw [h] <;> cases fsIsFile fs.settings <;> simp
  have hp : probeResult fs = none := by
    unfold probeResult
    rcases h1 with h | h | h <;> rw [h] <;> exact hfb
  simp [check_auth_status, hp]

/-- C6 witness: the theorem applied to an invalid primary file with the
fallback pair missing, from the initial state. -/
theorem probe_bad_files_false_none_witness :
    check_auth_status (FS.mk FileState.invalid FileState.missing FileState.missing)
        initState =
      ({ initState with is_authenticated := false, credentials_path := none },
       false) :=
  probe_bad_files_false_none _ initState (Or.inr (Or.inr rfl)) (Or.inl rfl)

/-! ## Claim C7: start_auth_flow is a no-op while a session is active -/

theorem start_noop (su : SpawnSupply) (s : AState) (h : procAlive s = true) :
    start_auth_flow su s = (s, []) := by
  simp [start_auth_flow, h]

theorem startMany_noop : ∀ (sus : List SpawnSupply) (s : AState),
    procAlive s = true → startMany sus s = (s, [])
  | [], s, _ => rfl
  | su :: sus, s, h => by
    simp [startMany, start_noop su s h, startMany_noop sus s h]

/-- C7: starting from a state with no live child, the first `start_auth_flow`
call spawns exactly one child process and terminal descriptor pair, and every
further call in the sequence is a silent no-op: no further spawn happens and
the stored process handle and descriptor stay identical. -/
theorem start_flow_single_session (s : AState) (su : SpawnSupply)
    (sus : List SpawnSupply) (h : procAlive s = false) :
    (start_auth_flow su s).2 = [SpawnEvent.mk su.child_pid su.fd] ∧
    (start_auth_flow su s).1.auth_process = some (Proc.mk su.child_pid true) ∧
    (start_auth_flow su s).1.master_fd = some su.fd ∧
    startMany sus (start_auth_flow su s).1 = ((start_auth_flow su s).1, []) := by
  have halive : procAlive (start_auth_flow su s).1 = true := by
    simp only [start_auth_flow, h, Bool.false_eq_true, if_false]
    simp [procAlive]
  refine ⟨?_, ?_, ?_, startMany_noop sus _ halive⟩ <;> simp [start_auth_flow, h]

/-- C7 witness: the theorem applied at the initial state with two further
start calls offering fresh resources. -/
theorem start_flow_single_session_witness :
    (start_auth_flow (SpawnSupply.mk 7 5) initState).2 =
      [SpawnEvent.mk 7 5] ∧
    (start_auth_flow (SpawnSupply.mk 7 5) initState).1.auth_process =
      some (Proc.mk 7 true) ∧
    (start_auth_flow (SpawnSupply.mk 7 5) initState).1.master_fd = some 5 ∧
    startMany [SpawnSupply.mk 8 6, SpawnSupply.mk 9 4]
        (start_auth_flow (SpawnSupply.mk 7 5) initState).1 =
      ((start_auth_flow (SpawnSupply.mk 7 5) initState).1, []) :=
  start_flow_single_session initState (SpawnSupply.mk 7 5)
    [SpawnSupply.mk 8 6, SpawnSupply.mk 9 4] (by decide)

/-! ## Claim C10: submit_code guard failures change nothing -/

/-- C10: when no child is active (no handle, or the child has exited) or the
master descriptor is cleared, `submit_code` returns the success flag false
with one of the two guard error messages, performs no terminal action, and
returns the state exactly as it was. -/
theorem submit_code_guard (env : SubmitEnv) (code : String) (s : AState)
    (h : procAlive s = false ∨ s.master_fd = none) :
    (submit_code env code s).state = s ∧ (submit_code env code s).acts = [] ∧
    (submit_code env code s).ok = false ∧
    ((submit_code env code s).msg = "Auth process not running." ∨
     (submit_code env code s).msg = "PTY master not open.") := by
  rcases h with h | h
  · simp [submit_code, h]
  · cases halive : procAlive s
    · simp [submit_code, halive]
    · simp [submit_code, halive, h]

/-- C10 witness: the theorem applied at the initial state, which has no
process handle. -/
theorem submit_code_guard_witness :
    (submit_code (SubmitEnv.mk false "" false "" [] (FS.mk FileState.missing
        FileState.missing FileState.missing) (CleanupOracle.mk false false))
        "123-456" initState).state = initState ∧
    (submit_code (SubmitEnv.mk false "" false "" [] (FS.mk FileState.missing
        FileState.missing FileState.missing) (CleanupOracle.mk false false))
        "123-456" initState).acts = [] ∧
    (submit_code (SubmitEnv.mk false "" false "" [] (FS.mk FileState.missing
        FileState.missing FileState.missing) (CleanupOracle.mk false false))
        "123-456" initState).ok = false ∧
    ((submit_code (SubmitEnv.mk false "" false "" [] (FS.mk FileState.missing
        FileState.missing FileState.missing) (CleanupOracle.mk false false))
        "123-456" initState).msg = "Auth process not running." ∨
     (submit_code (SubmitEnv.mk false "" false "" [] (FS.mk FileState.missing
        FileState.missing FileState.missing) (CleanupOracle.mk false false))
        "123-456" initState).msg = "PTY master not open.") :=
  submit_code_guard _ "123-456" initState (Or.inl (by decide))

/-! ## Claim C4: the menu keystroke is sent at most once per session -/

/-- PTY write actions. -/
def isWriteAct : Act → Bool
  | Act.writeBytes _ => true
  | _ => false

/-- How many keystroke injections the menu flag still allows. -/
def menuBudget (st : MonState) : Nat :=
  if st.menu_handled then 0 else 1

theorem urlStep_menu (st : MonState) (c : List Char) :
    (urlStep st c).menu_handled = st.menu_handled := by
  unfold urlStep
  cases findUrl c with
  | none => rfl
  | some u => by_cases h : qualifiesUrl u <;> simp [h]

theorem monitorLine_writes (w : Bool) (st : MonState) (l : List Char) :
    ((monitorLine w st l).2.1.filter isWriteAct).length +
      menuBudget (monitorLine w st l).1 ≤ menuBudget st ∧
    ∀ a ∈ (monitorLine w st l).2.1.filter isWriteAct,
      a = Act.writeBytes ['1', '\n'] := by
  unfold monitorLine
  by_cases hc : (!st.menu_handled && containsSub (stripAnsi l) menuLit) = true
  · have hm : st.menu_handled = false := by
      rcases Bool.and_eq_true .. |>.mp hc with ⟨h1, _⟩
      exact Bool.not_eq_true' .. |>.mp h1
    have ht : containsSub (stripAnsi l) menuLit = true := by
      rw [hm] at hc
      simpa using hc
    cases w
    · simp [ht, menuBudget, hm, isWriteAct]
    · simp [ht, menuBudget, hm, isWriteAct, urlStep_menu]
  · simp only [hc, if_false, Bool.false_eq_true]
    simp [menuBudget, urlStep_menu, isWriteAct]

theorem monitorLines_writes (w : Bool) : ∀ (lines : List (List Char)) (st : MonState),
    ((monitorLines w st lines).2.filter isWriteAct).length +
      menuBudget (monitorLines w st lines).1 ≤ menuBudget st ∧
    ∀ a ∈ (monitorLines w st lines).2.filter isWriteAct,
      a = Act.writeBytes ['1', '\n']
  | [], st => by simp [monitorLines]
  | l :: ls, st => by
    obtain ⟨h1, h2⟩ := monitorLine_writes w st l
    obtain ⟨h3, h4⟩ := monitorLines_writes w ls (monitorLine w st l).1
    unfold monitorLines
    by_cases hc : (monitorLine w st l).2.2 = true
    · simp only [hc, if_true]
      refine ⟨?_, ?_⟩
      · rw [List.filter_append, List.length_append]
        omega
      · intro a ha
        rw [List.filter_append, List.mem_append] at ha
        rcases ha with ha | ha
        · exact h2 a ha
        · exact h4 a ha
    · simp only [hc, if_false, Bool.false_eq_true]
      exact ⟨by omega, h2⟩

theorem monitorChunks_writes (w : Bool) : ∀ (chunks : List (List Char)) (st : MonState),
    ((monitorChunks w st chunks).2.filter isWriteAct).length +
      menuBudget (monitorChunks w st chunks).1 ≤ menuBudget st ∧
    ∀ a ∈ (monitorChunks w st chunks).2.filter isWriteAct,
      a = Act.writeBytes ['1', '\n']
  | [], st => by simp [monitorChunks]
  | c :: cs, st => by
    obtain ⟨h1, h2⟩ := monitorLines_writes w (pySplitlines c) st
    obtain ⟨h3, h4⟩ := monitorChunks_writes w cs (monitorLines w st (pySplitlines c)).1
    unfold monitorChunks
    dsimp only
    refine ⟨?_, ?_⟩
    · rw [List.filter_append, List.length_append]
      omega
    · intro a ha
      rw [List.filter_append, List.mem_append] at ha
      rcases ha with ha | ha
      · exact h2 a ha
      · exact h4 a ha

/-- C4: over any sequence of output chunks, however the menu-trigger phrase
is repeated within a line, across lines or across chunks, one run of the
monitor loop performs at most one PTY write, and any write it performs is
exactly the menu-selection keystroke: the character 1 followed by a line
terminator. -/
theorem menu_keystroke_at_most_once (writeOk : Bool) (chunks : List (List Char))
    (s : AState) :
    ((monitor_output writeOk chunks s).2.filter isWriteAct).length ≤ 1 ∧
    ∀ a ∈ (monitor_output writeOk chunks s).2.filter isWriteAct,
      a = Act.writeBytes ['1', '\n'] := by
  unfold monitor_output
  cases hp : s.auth_process with
  | none => cases hm : s.master_fd <;> simp
  | some p =>
    cases hm : s.master_fd with
    | none => simp
    | some fd =>
      dsimp only
      obtain ⟨h1, h2⟩ := monitorChunks_writes writeOk chunks
        (MonState.mk false s.auth_url)
      have hb : menuBudget (MonState.mk false s.auth_url) = 1 := rfl
      exact ⟨by omega, h2⟩

/-! ## Claim C1: the recorded login URL under repeated qualifying URLs -/

/-- Replay of the URL slot updates over a line sequence: every qualifying URL
overwrites the slot, so the last one wins and the slot is never cleared. -/
def lastUrlUpd (u0 : Option (List Char)) (lines : List (List Char)) :
    Option (List Char) :=
  lines.foldl
    (fun acc l =>
      match lineQualUrl l with
      | some u => some u
      | none => acc) u0

theorem urlStep_auth (st : MonState) (l : List Char) :
    (urlStep st (stripAnsi l)).auth_url =
      match lineQualUrl l with
      | some u => some u
      | none => st.auth_url := by
  unfold urlStep lineQualUrl
  cases findUrl (stripAnsi l) with
  | none => rfl
  | some u => by_cases h : qualifiesUrl u <;> simp [h]

theorem monitorLine_cont (st : MonState) (l : List Char) :
    (monitorLine true st l).2.2 = true := by
  unfold monitorLine
  by_cases hc : (!st.menu_handled && containsSub (stripAnsi l) menuLit) = true <;>
    simp [hc]

theorem monitorLine_url (st : MonState) (l : List Char) :
    (monitorLine true st l).1.auth_url =
      match lineQualUrl l with
      | some u => some u
      | none => st.auth_url := by
  unfold monitorLine
  by_cases hc : (!st.menu_handled && containsSub (stripAnsi l) menuLit) = true
  · simp only [hc, if_true]
    rw [urlStep_auth]
  · simp only [hc, if_false, Bool.false_eq_true]
    rw [urlStep_auth]

theorem monitorLines_url : ∀ (lines : List (List Char)) (st : MonState),
    (monitorLines true st lines).1.auth_url = lastUrlUpd st.auth_url lines
  | [], st => rfl
  | l :: ls, st => by
    unfold monitorLines
    simp only [monitorLine_cont, if_true]
    rw [monitorLines_url ls (monitorLine true st l).1]
    unfold lastUrlUpd
    rw [List.foldl_cons, monitorLine_url]

theorem monitorChunks_url : ∀ (chunks : List (List Char)) (st : MonState),
    (monitorChunks true st chunks).1.auth_url =
      lastUrlUpd st.auth_url ((chunks.map pySplitlines).flatten)
  | [], st => rfl
  | c :: cs, st => by
    unfold monitorChunks
    dsimp only
    rw [monitorChunks_url cs (monitorLines true st (pySplitlines c)).1,
      monitorLines_url]
    unfold lastUrlUpd
    rw [List.map_cons, List.flatten_cons, List.foldl_append]

theorem lastUrlUpd_isSome : ∀ (lines : List (List Char)) (u0 : Option (List Char)),
    u0.isSome = true → (lastUrlUpd u0 lines).isSome = true
  | [], _, h => h
  | l :: ls, u0, h => by
    unfold lastUrlUpd
    rw [List.foldl_cons]
    apply lastUrlUpd_isSome ls
    cases hq : lineQualUrl l <;> simp [hq, h]

/-- C1 counterexample: with a qualifying URL already recorded, one further
chunk holding a different qualifying URL overwrites the recorded value,
refuting the claim that the recorded URL never changes once set. -/
theorem url_monotonicity_counterexample :
    (monitor_output true ["Visit https://accounts.google.com/b now".toList]
        (AState.mk (some (Proc.mk 7 true))
          (some "https://accounts.google.com/a".toList) false none
          (some 5))).1.auth_url =
      some "https://accounts.google.com/b".toList ∧
    some "https://accounts.google.com/b".toList ≠
      some "https://accounts.google.com/a".toList := by
  constructor
  · rfl
  · decide

/-- C1 (amended): within one monitor run over any chunk sequence (with PTY
writes succeeding), the recorded URL is not write-once: it equals the replay
of all qualifying URL events in order, so each further qualifying URL
overwrites it and the last one wins; it is only monotonic in the weaker sense
that once set it is never cleared. -/
theorem url_last_qualifying_wins (chunks : List (List Char)) (s : AState)
    (hp : s.auth_process.isSome = true) (hm : s.master_fd.isSome = true) :
    (monitor_output true chunks s).1.auth_url =
      lastUrlUpd s.auth_url ((chunks.map pySplitlines).flatten) ∧
    (s.auth_url.isSome = true →
      (monitor_output true chunks s).1.auth_url.isSome = true) := by
  obtain ⟨p, hp⟩ := Option.isSome_iff_exists.mp hp
  obtain ⟨fd, hm⟩ := Option.isSome_iff_exists.mp hm
  unfold monitor_output
  rw [hp, hm]
  dsimp only
  rw [monitorChunks_url]
  exact ⟨rfl, lastUrlUpd_isSome _ _⟩

/-- C1 witness: the amended theorem applied at the counterexample state. -/
theorem url_last_qualifying_wins_witness :
    (monitor_output true ["Visit https://accounts.google.com/b now".toList]
        (AState.mk (some (Proc.mk 7 true))
          (some "https://accounts.google.com/a".toList) false none
          (some 5))).1.auth_url =
      lastUrlUpd (some "https://accounts.google.com/a".toList)
        ((["Visit https://accounts.google.com/b now".toList].map
          pySplitlines).flatten) ∧
    ((some "https://accounts.google.com/a".toList : Option (List Char)).isSome
        = true →
      (monitor_output true ["Visit https://accounts.google.com/b now".toList]
          (AState.mk (some (Proc.mk 7 true))
            (some "https://accounts.google.com/a".toList) false none
            (some 5))).1.auth_url.isSome = true) := by
  have h := url_last_qualifying_wins
    ["Visit https://accounts.google.com/b now".toList]
    (AState.mk (some (Proc.mk 7 true))
      (some "https://accounts.google.com/a".toList) false none (some 5))
    (by decide) (by decide)
  exact h

/-! ## Claim C8: prompt-echo removal in clean_gemini_output -/

theorem cleanLoop_removed (q : List Char) : ∀ (lines : List (List Char)),
    cleanLoop (some q) lines true = lines.filter (fun l => !isNoiseLine l)
  | [] => rfl
  | line :: rest => by
    rw [List.filter_cons]
    unfold cleanLoop
    by_cases h1 : List.isPrefixOf startupLit (pyStrip line) = true
    · simp [h1, isNoiseLine, cleanLoop_removed q rest]
    · by_cases h2 : List.isPrefixOf loadedLit (pyStrip line) = true
      · simp [h1, h2, isNoiseLine, cleanLoop_removed q rest]
      · simp [h1, h2, isNoiseLine, cleanLoop_removed q rest]

theorem cleanLoop_spec (q : List Char) (hq : q ≠ []) : ∀ (lines : List (List Char)),
    cleanLoop (some q) lines false =
      removeFirstMatch (fun l => pyStrip l = pyStrip q)
        (lines.filter (fun l => !isNoiseLine l))
  | [] => rfl
  | line :: rest => by
    have htr : promptTruthy (some q) = true := by
      simp [promptTruthy, hq]
    rw [List.filter_cons]
    unfold cleanLoop
    by_cases h1 : List.isPrefixOf startupLit (pyStrip line) = true
    · simp [h1, isNoiseLine, cleanLoop_spec q hq rest]
    · by_cases h2 : List.isPrefixOf loadedLit (pyStrip line) = true
      · simp [h1, h2, isNoiseLine, cleanLoop_spec q hq rest]
      · by_cases h3 : pyStrip line = pyStrip q
        · have hq1 : ¬ List.isPrefixOf startupLit (pyStrip q) = true := by
            rw [← h3]; exact h1
          have hq2 : ¬ List.isPrefixOf loadedLit (pyStrip q) = true := by
            rw [← h3]; exact h2
          simp [h1, h2, h3, htr, hq1, hq2, isNoiseLine, removeFirstMatch,
            cleanLoop_removed q rest]
        · simp [h1, h2, h3, htr, isNoiseLine, removeFirstMatch,
            cleanLoop_spec q hq rest]

/-- C8 counterexample: with a prompt that is itself a noise line, both
identical lines are removed by the noise filter, so the subsequent identical
line is not kept; the claim that exactly one line is removed and the rest of
the identical lines survive predicts the output to be the second line, and is
false at this input. -/
theorem clean_output_counterexample :
    clean_gemini_output "[STARTUP] hi\n[STARTUP] hi" (some "[STARTUP] hi") = "" ∧
    clean_gemini_output "[STARTUP] hi\n[STARTUP] hi" (some "[STARTUP] hi") ≠
      "[STARTUP] hi" := by
  constructor
  · rfl
  · decide

/-- C8 (amended): for every input text and non-empty prompt, among the lines
that survive the noise filter only the first line whose stripped content
equals the stripped prompt is removed, and subsequent identical surviving
lines are kept; lines whose stripped content is a noise line are removed by
the noise filter regardless of the prompt, and the final result is joined and
whitespace-trimmed. -/
theorem clean_output_first_prompt_only (text p : String) (hp : p ≠ "") :
    clean_gemini_output text (some p) =
      String.mk (pyStrip (List.intercalate ['\n']
        (removeFirstMatch (fun l => pyStrip l = pyStrip p.toList)
          ((pySplitlines (stripAnsi text.toList)).filter
            (fun l => !isNoiseLine l))))) := by
  have hq : p.toList ≠ [] := by
    intro h
    apply hp
    apply String.ext
    simpa using h
  unfold clean_gemini_output
  dsimp only
  rw [Option.map_some', cleanLoop_spec p.toList hq]

/-- C8 witness: the amended theorem applied at a text repeating the prompt
line; the first match is removed and the second identical line survives. -/
theorem clean_output_first_prompt_only_witness :
    clean_gemini_output "hi\nhi\nok" (some "hi") =
      String.mk (pyStrip (List.intercalate ['\n']
        (removeFirstMatch (fun l => pyStrip l = pyStrip "hi".toList)
          ((pySplitlines (stripAnsi "hi\nhi\nok".toList)).filter
            (fun l => !isNoiseLine l))))) :=
  clean_output_first_prompt_only "hi\nhi\nok" "hi" (by decide)

/-! ## Claims C2 and C3: the verification phase of submit_code -/

/-- A poll-loop event that neither breaks the loop nor carries a success
indicator. -/
def benignEvent : ReadEvent → Prop
  | ReadEvent.fdGone => False
  | ReadEvent.readErr => True
  | ReadEvent.data c => hasIndicator (stripAnsi c) = false

theorem pollLoop_step_benign (fs : FS) (o : CleanupOracle) (e : ReadEvent)
    (rest : List ReadEvent) (s : AState) (he : benignEvent e) :
    pollLoop fs o (e :: rest) s =
      SubmitResult.mk (pollLoop fs o rest s).state
        (Act.sleep 500 :: (pollLoop fs o rest s).acts)
        (pollLoop fs o rest s).ok (pollLoop fs o rest s).msg := by
  cases e with
  | fdGone => exact absurd he (by simp [benignEvent])
  | readErr => rfl
  | data c =>
    have hc : hasIndicator (stripAnsi c) = false := he
    simp only [pollLoop, hc, Bool.false_eq_true, if_false]

theorem pollLoop_benign (fs : FS) (o : CleanupOracle) :
    ∀ (pre rest : List ReadEvent) (s : AState),
      (∀ e ∈ pre, benignEvent e) →
      (pollLoop fs o (pre ++ rest) s).state = (pollLoop fs o rest s).state ∧
      (pollLoop fs o (pre ++ rest) s).ok = (pollLoop fs o rest s).ok ∧
      (pollLoop fs o (pre ++ rest) s).msg = (pollLoop fs o rest s).msg ∧
      (pollLoop fs o (pre ++ rest) s).acts =
        List.replicate pre.length (Act.sleep 500) ++ (pollLoop fs o rest s).acts
  | [], rest, s, _ => by simp
  | e :: pre, rest, s, h => by
    obtain ⟨h1, h2, h3, h4⟩ :=
      pollLoop_benign fs o pre rest s (fun x hx => h x (List.mem_cons_of_mem _ hx))
    rw [List.cons_append,
      pollLoop_step_benign fs o e (pre ++ rest) s (h e (List.mem_cons_self ..))]
    refine ⟨h1, h2, h3, ?_⟩
    dsimp only
    rw [h4, List.length_cons, List.replicate_succ, List.cons_append]

theorem pollLoop_indicator (fs : FS) (o : CleanupOracle) (c : List Char)
    (rest : List ReadEvent) (s : AState) (hc : hasIndicator (stripAnsi c) = true) :
    pollLoop fs o (ReadEvent.data c :: rest) s =
      SubmitResult.mk (cleanup_process o s).1
        (Act.sleep 1000 :: (cleanup_process o s).2) true
        "Authentication successful." := by
  unfold pollLoop
  simp only [hc, if_true]

/-- C2 (amended): when a chunk containing a success indicator arrives during
the verification window (after any benign reads), `submit_code` sleeps the
settle delay, cleans up the child process and terminal descriptor, and
returns success — but it leaves the process-wide authenticated flag exactly
as it was: this path never sets it, only a later credential probe does. -/
theorem submit_success_on_indicator (env : SubmitEnv) (code : String)
    (s : AState) (p : Proc) (fd : Nat) (pre post : List ReadEvent)
    (c : List Char)
    (hp : s.auth_process = some p) (ha : p.alive = true)
    (hm : s.master_fd = some fd) (h0 : fd ≠ 0)
    (hw : env.write_raises = false) (hf : env.fcntl_raises = false)
    (he : env.events = pre ++ ReadEvent.data c :: post)
    (hc : hasIndicator (stripAnsi c) = true)
    (hb : ∀ e ∈ pre, benignEvent e) :
    (submit_code env code s).ok = true ∧
    (submit_code env code s).msg = "Authentication successful." ∧
    (submit_code env code s).state =
      { s with master_fd := none, auth_process := none } ∧
    (submit_code env code s).state.is_authenticated = s.is_authenticated ∧
    (submit_code env code s).acts =
      Act.writeBytes (submittedCode code) ::
        (List.replicate pre.length (Act.sleep 500) ++
          Act.sleep 1000 :: (cleanup_process env.cleanup_oracle s).2) := by
  have halive : procAlive s = true := by
    unfold procAlive
    rw [hp]
    exact ha
  have hmfd : s.master_fd ≠ some 0 := by
    rw [hm]
    intro hx
    exact h0 (by injection hx)
  obtain ⟨k1, k2, k3, k4⟩ := pollLoop_benign env.fs env.cleanup_oracle pre
    (ReadEvent.data c :: post) s hb
  rw [pollLoop_indicator env.fs env.cleanup_oracle c post s hc] at k1 k2 k3 k4
  unfold submit_code
  rw [halive, hm]
  simp only [hw, hf, Bool.not_true, Bool.false_eq_true, if_false, if_true]
  rw [← he] at k1 k2 k3 k4
  refine ⟨k2, k3, ?_, ?_, by rw [k4]⟩
  · rw [k1, cleanup_state_eq env.cleanup_oracle s hmfd]
  · rw [k1, cleanup_state_eq env.cleanup_oracle s hmfd]

/-- Submit environment whose single read yields a success indicator and whose
credential files are all absent. -/
def envInd : SubmitEnv :=
  SubmitEnv.mk false "" false "" [ReadEvent.data "sandbox".toList]
    (FS.mk FileState.missing FileState.missing FileState.missing)
    (CleanupOracle.mk false false)

/-- C2 counterexample: on the indicator success path the call reports success
and releases the handles, yet the authenticated flag is still false
afterwards, refuting the claim that this path marks it true. -/
theorem submit_no_auth_flag_counterexample :
    (submit_code envInd "123-456" sLive).ok = true ∧
    (submit_code envInd "123-456" sLive).msg = "Authentication successful." ∧
    (submit_code envInd "123-456" sLive).state.master_fd = none ∧
    (submit_code envInd "123-456" sLive).state.auth_process = none ∧
    (submit_code envInd "123-456" sLive).state.is_authenticated = false := by
  decide

/-- C2 witness: the amended theorem applied at a live session receiving one
indicator chunk. -/
theorem submit_success_on_indicator_witness :
    (submit_code envInd "123-456" sLive).ok = true ∧
    (submit_code envInd "123-456" sLive).msg = "Authentication successful." ∧
    (submit_code envInd "123-456" sLive).state =
      { sLive with master_fd := none, auth_process := none } ∧
    (submit_code envInd "123-456" sLive).state.is_authenticated =
      sLive.is_authenticated ∧
    (submit_code envInd "123-456" sLive).acts =
      Act.writeBytes (submittedCode "123-456") ::
        (List.replicate (0 : Nat) (Act.sleep 500) ++
          Act.sleep 1000 :: (cleanup_process envInd.cleanup_oracle sLive).2) :=
  submit_success_on_indicator envInd "123-456" sLive (Proc.mk 7 true) 5 [] []
    "sandbox".toList rfl rfl rfl (by decide) rfl rfl rfl (by decide)
    (by intro e he; exact absurd he (by simp))

theorem verifyFallback_notfound (fs : FS) (o : CleanupOracle) (s : AState)
    (hprobe : probeResult fs = none) :
    verifyFallback fs o s =
      SubmitResult.mk { s with is_authenticated := false, credentials_path := none }
        [] true "Code submitted. Verifying..." := by
  unfold verifyFallback check_auth_status
  rw [hprobe]
  rfl

/-- C3 (amended): when the verification window times out with every read
benign (no success indicator) and the fallback credential probe then finds
nothing, `submit_code` performs no cleanup at all — the child process handle
and the terminal descriptor are left exactly as they were — and returns a
non-failure pending result: the success flag true with the pending message.
The only state change is the probe side effect clearing the authenticated
flag and the recorded path. -/
theorem submit_pending_leaves_session (env : SubmitEnv) (code : String)
    (s : AState) (p : Proc) (fd : Nat)
    (hp : s.auth_process = some p) (ha : p.alive = true)
    (hm : s.master_fd = some fd)
    (hw : env.write_raises = false) (hf : env.fcntl_raises = false)
    (hb : ∀ e ∈ env.events, benignEvent e)
    (hprobe : probeResult env.fs = none) :
    (submit_code env code s).ok = true ∧
    (submit_code env code s).msg = "Code submitted. Verifying..." ∧
    (submit_code env code s).state =
      { s with is_authenticated := false, credentials_path := none } ∧
    (submit_code env code s).state.auth_process = some p ∧
    (submit_code env code s).state.master_fd = some fd ∧
    (submit_code env code s).acts =
      Act.writeBytes (submittedCode code) ::
        List.replicate env.events.length (Act.sleep 500) := by
  have halive : procAlive s = true := by
    unfold procAlive
    rw [hp]
    exact ha
  obtain ⟨k1, k2, k3, k4⟩ := pollLoop_benign env.fs env.cleanup_oracle
    env.events [] s hb
  rw [List.append_nil] at k1 k2 k3 k4
  have hvf := verifyFallback_notfound env.fs env.cleanup_oracle s hprobe
  have hpoll : pollLoop env.fs env.cleanup_oracle [] s = verifyFallback
    env.fs env.cleanup_oracle s := rfl
  rw [hpoll, hvf] at k1 k2 k3 k4
  dsimp only at k1 k2 k3 k4
  rw [hm] at k1
  unfold submit_code
  rw [halive, hm]
  simp only [hw, hf, Bool.not_true, Bool.false_eq_true, if_false, if_true]
  refine ⟨k2, k3, k1, ?_, ?_, by rw [k4, List.append_nil]⟩
  · rw [k1]
    exact hp
  · rw [k1]

/-- Submit environment whose single read carries no success indicator and
whose credential files are all absent. -/
def envPend : SubmitEnv :=
  SubmitEnv.mk false "" false "" [ReadEvent.data "no luck".toList]
    (FS.mk FileState.missing FileState.missing FileState.missing)
    (CleanupOracle.mk false false)

/-- C3 counterexample: after the verification window elapses with no
indicator and the probe finds nothing, the call reports the pending result
but the child process handle and the terminal descriptor are still present,
refuting the claim that `submit_code` cleans up the pair anyway on this
path. -/
theorem submit_pending_no_cleanup_counterexample :
    (submit_code envPend "bad-code" sLive).ok = true ∧
    (submit_code envPend "bad-code" sLive).msg = "Code submitted. Verifying..." ∧
    (submit_code envPend "bad-code" sLive).state.auth_process =
      some (Proc.mk 7 true) ∧
    (submit_code envPend "bad-code" sLive).state.master_fd = some 5 := by
  decide

/-- C3 witness: the amended theorem applied at a live session with one benign
read and empty credential files. -/
theorem submit_pending_leaves_session_witness :
    (submit_code envPend "bad-code" sLive).ok = true ∧
    (submit_code envPend "bad-code" sLive).msg = "Code submitted. Verifying..." ∧
    (submit_code envPend "bad-code" sLive).state =
      { sLive with is_authenticated := false, credentials_path := none } ∧
    (submit_code envPend "bad-code" sLive).state.auth_process =
      some (Proc.mk 7 true) ∧
    (submit_code envPend "bad-code" sLive).state.master_fd = some 5 ∧
    (submit_code envPend "bad-code" sLive).acts =
      Act.writeBytes (submittedCode "bad-code") ::
        List.replicate envPend.events.length (Act.sleep 500) :=
  submit_pending_leaves_session envPend "bad-code" sLive (Proc.mk 7 true) 5
    rfl rfl rfl rfl rfl
    (by
      intro e he
      simp only [envPend, List.mem_singleton] at he
      subst he
      show hasIndicator (stripAnsi "no luck".toList) = false
      decide)
    (by decide)

/-! ## Claim C9: the authenticated flag tracks the recorded path -/

/-- The implicit invariant: the authenticated flag is true exactly when a
credential source path is recorded. -/
def authInv (s : AState) : Prop :=
  s.is_authenticated = s.credentials_path.isSome

theorem authInv_check (fs : FS) (s : AState) :
    authInv (check_auth_status fs s).1 := by
  unfold check_auth_status
  cases probeResult fs <;> simp [authInv]

theorem authInv_cleanup (o : CleanupOracle) (s : AState) (h : authInv s) :
    authInv (cleanup_process o s).1 := by
  obtain ⟨h1, h2, h3⟩ := cleanup_preserves o s
  unfold authInv at h ⊢
  rw [h2, h3]
  exact h

theorem authInv_verifyFallback (fs : FS) (o : CleanupOracle) (s : AState) :
    authInv (verifyFallback fs o s).state := by
  unfold verifyFallback
  by_cases h : (check_auth_status fs s).2 = true
  · simp only [h, if_true]
    exact authInv_cleanup o _ (authInv_check fs s)
  · simp only [h, if_false, Bool.false_eq_true]
    exact authInv_check fs s

theorem authInv_pollLoop (fs : FS) (o : CleanupOracle) :
    ∀ (evs : List ReadEvent) (s : AState), authInv s →
      authInv (pollLoop fs o evs s).state
  | [], s, _ => authInv_verifyFallback fs o s
  | ReadEvent.fdGone :: _, s, _ => authInv_verifyFallback fs o s
  | ReadEvent.readErr :: rest, s, h => by
    show authInv (pollLoop fs o rest s).state
    exact authInv_pollLoop fs o rest s h
  | ReadEvent.data c :: rest, s, h => by
    unfold pollLoop
    by_cases hc : hasIndicator (stripAnsi c) = true
    · simp only [hc, if_true]
      exact authInv_cleanup o s h
    · simp only [hc, if_false, Bool.false_eq_true]
      exact authInv_pollLoop fs o rest s h

/-- C9: the flag-path invariant holds in the constructor state and is
preserved by every operation of the authenticator: the credential probe, the
flow start, the verification of a submitted code, forced termination,
process cleanup, and the monitor loop. -/
theorem auth_flag_path_invariant :
    authInv initState ∧
    (∀ fs s, authInv s → authInv (check_auth_status fs s).1) ∧
    (∀ su s, authInv s → authInv (start_auth_flow su s).1) ∧
    (∀ env code s, authInv s → authInv (submit_code env code s).state) ∧
    (∀ fs o s, authInv s → authInv (force_terminate fs o s).state) ∧
    (∀ o s, authInv s → authInv (cleanup_process o s).1) ∧
    (∀ w chunks s, authInv s → authInv (monitor_output w chunks s).1) := by
  refine ⟨rfl, fun fs s _ => authInv_check fs s, ?_, ?_, ?_,
    fun o s h => authInv_cleanup o s h, ?_⟩
  · intro su s h
    unfold start_auth_flow
    by_cases ha : procAlive s = true
    · simp only [ha, if_true]
      exact h
    · simp only [ha, if_false, Bool.false_eq_true]
      exact h
  · intro env code s h
    unfold submit_code
    by_cases hg : (!procAlive s) = true
    · simp only [hg, if_true]
      exact h
    · simp only [hg, if_false, Bool.false_eq_true]
      cases s.master_fd
      · exact h
      · dsimp only
        by_cases hw : env.write_raises = true
        · simp only [hw, if_true]
          exact h
        · simp only [hw, if_false, Bool.false_eq_true]
          by_cases hf : env.fcntl_raises = true
          · simp only [hf, if_true]
            exact h
          · simp only [hf, if_false, Bool.false_eq_true]
            exact authInv_pollLoop env.fs env.cleanup_oracle env.events s h
  · intro fs o s h
    unfold force_terminate
    by_cases hc : (check_auth_status fs (cleanup_process o s).1).2 = true
    · simp only [hc, if_true]
      exact authInv_check fs _
    · simp only [hc, if_false, Bool.false_eq_true]
      exact authInv_check fs _
  · intro w chunks s h
    unfold monitor_output
    cases s.auth_process
    · exact h
    · cases s.master_fd
      · exact h
      · dsimp only
        unfold authInv at h ⊢
        exact h

/-- C9 witness: the invariant instantiated through three concrete operation
applications from concretely checked invariant states. -/
theorem auth_flag_path_invariant_witness :
    authInv (check_auth_status
      (FS.mk FileState.missing FileState.missing FileState.missing)
      initState).1 ∧
    authInv (start_auth_flow (SpawnSupply.mk 1 3) initState).1 ∧
    authInv (submit_code envInd "123-456" sLive).state :=
  ⟨auth_flag_path_invariant.2.1
      (FS.mk FileState.missing FileState.missing FileState.missing)
      initState rfl,
   auth_flag_path_invariant.2.2.1 (SpawnSupply.mk 1 3) initState rfl,
   auth_flag_path_invariant.2.2.2.1 envInd "123-456" sLive rfl⟩
